import Mathlib

/-!
# Session controller of `frontend/src/App.jsx`

A shallow embedding of the React component `App`: its eight `useState` cells,
the event handlers `handleFileChange`, `handleUpload` and `handleQuery`, and
the guards the rendered controls put in front of them (`disabled=...`).

An `async` handler is split at its `await`: the part that runs synchronously on
the event (it returns the new state and the request it sends, if any), and the
continuation that runs when the `fetch` settles.
-/

namespace App

/-! ## Values -/

/-- A JSON value as `response.json()` returns it. A number is a safe integer:
`num n safe` is the number whose value is the integer `n`, with `|n| < 2^53`,
which a JavaScript number holds exactly and prints in plain decimal. Numbers
with a fraction or of a larger magnitude are floating point and have no
value of this type. -/
inductive JsVal where
  | null : JsVal
  | bool (b : Bool) : JsVal
  | num (n : Int) (safe : n.natAbs < 2 ^ 53) : JsVal
  | str (s : String) : JsVal
  | arr (xs : List JsVal) : JsVal
  | obj (kvs : List (String × JsVal)) : JsVal

/-- A `File` of the file input: its name and its bytes. -/
structure File where
  name : String
  bytes : List Nat
  deriving DecidableEq

/-- The last binding of `key` among the members of a parsed JSON object
(`JSON.parse` keeps the last of duplicate keys); `none` is `undefined`. -/
def lookup (key : String) : List (String × JsVal) → Option JsVal
  | [] => none
  | (k, v) :: rest =>
    match lookup key rest with
    | some w => some w
    | none => if k = key then some v else none

/-- Reading `v.key` for one of the keys the component reads (`detail`,
`filename`, `num_chunks`, `answer`, `sources`). On `null` the read throws a
`TypeError` (`Except.error`, with the message V8 gives it); on an object it
is the member or `undefined`; on any other JSON value it is `undefined`. -/
def getProp (v : JsVal) (key : String) : Except String (Option JsVal) :=
  match v with
  | JsVal.null =>
    Except.error ("Cannot read properties of null (reading \x27" ++ key ++ "\x27)")
  | JsVal.obj kvs => Except.ok (lookup key kvs)
  | _ => Except.ok none

/-- The message of the `TypeError` that `ToString` throws on an object it
cannot convert (the text V8 gives it). -/
def notPrimitive : String := "Cannot convert object to primitive value"

mutual
/-- JavaScript `ToString` on a JSON value; `Except.error` is a thrown
`TypeError`, with its message. An array prints as `Array.prototype.join(",")`
of its elements. An object prints as `[object Object]` through
`Object.prototype.toString`, unless it has a member named `toString` of its
own: that member is not callable, `valueOf` returns no primitive, and the
conversion throws. -/
def JsVal.toStr : JsVal → Except String String
  | JsVal.null => Except.ok "null"
  | JsVal.bool true => Except.ok "true"
  | JsVal.bool false => Except.ok "false"
  | JsVal.num n _ => Except.ok (toString n)
  | JsVal.str s => Except.ok s
  | JsVal.arr xs => joinElems xs
  | JsVal.obj kvs =>
    if (lookup "toString" kvs).isSome then Except.error notPrimitive
    else Except.ok "[object Object]"
termination_by structural v => v
/-- The elements of an array joined by commas, left to right; a `null`
element prints empty. -/
def joinElems : List JsVal → Except String String
  | [] => Except.ok ""
  | JsVal.null :: rest => joinTail rest
  | x :: rest =>
    match JsVal.toStr x with
    | Except.error e => Except.error e
    | Except.ok a =>
      match joinTail rest with
      | Except.error e => Except.error e
      | Except.ok b => Except.ok (a ++ b)
termination_by structural xs => xs
/-- The elements after the first, each behind its comma. -/
def joinTail : List JsVal → Except String String
  | [] => Except.ok ""
  | JsVal.null :: rest =>
    match joinTail rest with
    | Except.error e => Except.error e
    | Except.ok b => Except.ok ("," ++ b)
  | x :: rest =>
    match JsVal.toStr x with
    | Except.error e => Except.error e
    | Except.ok a =>
      match joinTail rest with
      | Except.error e => Except.error e
      | Except.ok b => Except.ok ("," ++ a ++ b)
termination_by structural xs => xs
end

/-- JavaScript truthiness of a value that may be `undefined` (`none`). -/
def truthy : Option JsVal → Bool
  | none => false
  | some JsVal.null => false
  | some (JsVal.bool b) => b
  | some (JsVal.num n _) => n != 0
  | some (JsVal.str s) => s != ""
  | some (JsVal.arr _) => true
  | some (JsVal.obj _) => true

/-- JavaScript `ToString` on a value that may be `undefined`. -/
def toStr : Option JsVal → Except String String
  | none => Except.ok "undefined"
  | some v => v.toStr

/-- The code points `String.prototype.trim` strips: WhiteSpace and
LineTerminator of ECMAScript. -/
def isJsWhiteSpace (c : Char) : Bool :=
  let n := c.toNat
  n = 0x9 || n = 0xA || n = 0xB || n = 0xC || n = 0xD || n = 0x20 || n = 0xA0 ||
  n = 0x1680 || (0x2000 ≤ n && n ≤ 0x200A) || n = 0x2028 || n = 0x2029 ||
  n = 0x202F || n = 0x205F || n = 0x3000 || n = 0xFEFF

/-- The method `String.prototype.trim`. -/
def trim (s : String) : String :=
  String.mk ((((s.data.dropWhile isJsWhiteSpace).reverse).dropWhile isJsWhiteSpace).reverse)

/-! ## Component state -/

/-- The two non-null values of `uploadStatus`. -/
inductive Status where
  | success
  | error
  deriving DecidableEq

/-- The `role` of a chat message. -/
inductive Role where
  | user
  | assistant
  deriving DecidableEq

/-- An entry of `chatHistory`. `sources = none`: the object has no `sources`
property (or it is `undefined`). -/
structure Msg where
  role : Role
  content : Option JsVal
  sources : Option JsVal

/-- The `useState` cells of `App`, with `null` as `none` (for `stats`, which
receives a parsed body, as `JsVal.null`). -/
structure State where
  file : Option File
  uploading : Bool
  uploadStatus : Option Status
  uploadMessage : String
  stats : JsVal
  question : String
  chatHistory : List Msg
  querying : Bool

/-- The initial values passed to `useState`. -/
def State.init : State :=
  { file := none, uploading := false, uploadStatus := none, uploadMessage := "",
    stats := JsVal.null, question := "", chatHistory := [], querying := false }

/-! ## The network -/

/-- What `await response.json()` does: throw (with the error message) or
return the parsed value. -/
inductive Body where
  | unparseable (msg : String) : Body
  | parsed (v : JsVal) : Body

/-- How a `fetch` settles: rejected (a network failure, with the message of the
error) or fulfilled with a response, of which the handlers read `ok` and
`json()`. -/
inductive Outcome where
  | rejected (msg : String) : Outcome
  | response (ok : Bool) (body : Body) : Outcome

/-! ## Handlers -/

/-- The handler `handleFileChange`, on the `FileList` of the event target (`none`
when `e.target.files` is null). -/
def handleFileChange (files : Option (List File)) (s : State) : State :=
  match files with
  | some (f :: _) => { s with file := some f, uploadStatus := none, uploadMessage := "" }
  | _ => s

/-- The synchronous part of `handleUpload`, up to `await fetch(...)`: the new
state and the file posted to `/api/upload-pdf`, if a request is sent. -/
def handleUpload (s : State) : State × Option File :=
  match s.file with
  | none => (s, none)
  | some f =>
    ({ s with uploading := true, uploadStatus := none,
              uploadMessage := "Processing PDF... this may take a moment." }, some f)

/-- The argument of `new Error(...)` in `handleUpload`, as the message the
error gets: `errorData.detail || \x27Upload failed\x27` converted by `ToString`.
The read of `detail` and the conversion can throw themselves. -/
def uploadErrorMessage (errorData : JsVal) : Except String String :=
  match getProp errorData "detail" with
  | Except.error msg => Except.error msg
  | Except.ok detail => if truthy detail then toStr detail else Except.ok "Upload failed"

/-- The template literal of the success message in `handleUpload`: each
substitution is read and converted in turn, and either can throw. -/
def successMessage (data : JsVal) : Except String String :=
  match getProp data "filename" with
  | Except.error msg => Except.error msg
  | Except.ok filename =>
    match toStr filename with
    | Except.error msg => Except.error msg
    | Except.ok a =>
      match getProp data "num_chunks" with
      | Except.error msg => Except.error msg
      | Except.ok num_chunks =>
        match toStr num_chunks with
        | Except.error msg => Except.error msg
        | Except.ok b => Except.ok ("Successfully processed " ++ a ++ " (" ++ b ++ " chunks).")

/-- The `try` block of `handleUpload` after the `fetch` settled: the state it
reaches and, when it throws, the message of the error thrown. -/
def uploadTry (r : Outcome) (s : State) : State × Option String :=
  match r with
  | Outcome.rejected msg => (s, some msg)
  | Outcome.response false (Body.unparseable msg) => (s, some msg)
  | Outcome.response false (Body.parsed errorData) =>
    match uploadErrorMessage errorData with
    | Except.error msg => (s, some msg)
    | Except.ok msg => (s, some msg)
  | Outcome.response true (Body.unparseable msg) => (s, some msg)
  | Outcome.response true (Body.parsed data) =>
    let s1 := { s with stats := data, uploadStatus := some Status.success }
    match successMessage data with
    | Except.error msg => (s1, some msg)
    | Except.ok message => ({ s1 with uploadMessage := message, file := none }, none)

/-- The continuation of `handleUpload` after `await fetch(...)`: `try`, then
`catch`, then `finally`. -/
def handleUploadResume (r : Outcome) (s : State) : State :=
  let s2 :=
    match uploadTry r s with
    | (s1, none) => s1
    | (s1, some msg) => { s1 with uploadStatus := some Status.error, uploadMessage := msg }
  { s2 with uploading := false }

/-- The message of the assistant turn appended when a query fails. -/
def apology : String :=
  "Sorry, I encountered an error answering your question. Please try again."

/-- The synchronous part of `handleQuery`, up to `await fetch(...)`: the new
state and the question sent to `/api/query`, if a request is sent. -/
def handleQuery (s : State) : State × Option String :=
  if trim s.question = "" || s.querying then (s, none)
  else
    let userQuestion := s.question
    ({ s with question := "", querying := true,
              chatHistory := s.chatHistory ++
                [{ role := Role.user, content := some (JsVal.str userQuestion),
                   sources := none }] },
     some userQuestion)

/-- The `try` block of `handleQuery` after the `fetch` settled: the assistant
message it appends, or `none` when it throws. -/
def queryTry (r : Outcome) : Option Msg :=
  match r with
  | Outcome.rejected _ => none
  | Outcome.response false _ => none
  | Outcome.response true (Body.unparseable _) => none
  | Outcome.response true (Body.parsed data) =>
    match getProp data "answer", getProp data "sources" with
    | Except.ok answer, Except.ok sources =>
      some { role := Role.assistant, content := answer, sources := sources }
    | _, _ => none

/-- The continuation of `handleQuery` after `await fetch(...)`: `try`, then
`catch`, then `finally`. -/
def handleQueryResume (r : Outcome) (s : State) : State :=
  let m :=
    match queryTry r with
    | some m => m
    | none => { role := Role.assistant, content := some (JsVal.str apology), sources := none }
  { s with chatHistory := s.chatHistory ++ [m], querying := false }

/-! ## Rendered controls -/

/-- A click on the upload button: it is rendered only when `file` is set
(`file && (<button ...>)`), it is `disabled=\x7buploading\x7d`, and its `onClick`
is `handleUpload`. -/
def uploadButtonClick (s : State) : State × Option File :=
  match s.file with
  | none => (s, none)
  | some _ => if s.uploading then (s, none) else handleUpload s

/-- A change of the question input: `onChange` is `setQuestion(e.target.value)`
and the input is `disabled=\x7bquerying\x7d`. -/
def questionInputChange (value : String) (s : State) : State :=
  if s.querying then s else { s with question := value }

/-- The sources the chat panel lists under a message:
`msg.sources && msg.sources.length > 0 && msg.sources.map(...)`, for `sources`
absent or an array. -/
def renderedSources (m : Msg) : List JsVal :=
  match m.sources with
  | some (JsVal.arr xs) => xs
  | _ => []

/-! ## The running component -/

/-- The component and the requests that were sent and have not settled yet:
the files posted to `/api/upload-pdf` and the questions sent to `/api/query`,
oldest first. Each stands for a suspended `handleUpload` or `handleQuery`. -/
structure Sys where
  ui : State
  uploads : List File
  queries : List String

/-- The component as first rendered, nothing sent. -/
def Sys.init : Sys := { ui := State.init, uploads := [], queries := [] }

/-- What can happen to the component: the user acts on a control, or a
pending request (the `i`-th) settles. -/
inductive Event where
  | fileChange (files : Option (List File)) : Event
  | clickUpload : Event
  | uploadSettled (i : Nat) (r : Outcome) : Event
  | typeQuestion (value : String) : Event
  | submitQuery : Event
  | querySettled (i : Nat) (r : Outcome) : Event

/-- Is the event the settling of an ingest request. -/
def Event.isUploadSettled : Event → Bool
  | Event.uploadSettled _ _ => true
  | _ => false

/-- Is the event the settling of a query request. -/
def Event.isQuerySettled : Event → Bool
  | Event.querySettled _ _ => true
  | _ => false

/-- Is the event a change of the file input. -/
def Event.isFileChange : Event → Bool
  | Event.fileChange _ => true
  | _ => false

/-- One event. A settling event for a request that is not pending cannot
happen and leaves everything as it is. -/
def step (w : Sys) : Event → Sys
  | Event.fileChange files => { w with ui := handleFileChange files w.ui }
  | Event.clickUpload =>
    { w with ui := (uploadButtonClick w.ui).1,
             uploads := w.uploads ++ (uploadButtonClick w.ui).2.toList }
  | Event.uploadSettled i r =>
    if i < w.uploads.length then
      { w with ui := handleUploadResume r w.ui, uploads := w.uploads.eraseIdx i }
    else w
  | Event.typeQuestion value => { w with ui := questionInputChange value w.ui }
  | Event.submitQuery =>
    { w with ui := (handleQuery w.ui).1,
             queries := w.queries ++ (handleQuery w.ui).2.toList }
  | Event.querySettled i r =>
    if i < w.queries.length then
      { w with ui := handleQueryResume r w.ui, queries := w.queries.eraseIdx i }
    else w

/-- A sequence of events, in order. -/
def run (evs : List Event) (w : Sys) : Sys := evs.foldl step w

/-- The states the component can be in: those a sequence of events leads to
from the first render. -/
def Reachable (w : Sys) : Prop := ∃ evs : List Event, run evs Sys.init = w

/-- One upload from the click to its end: the click on the upload button,
the events `es` that happen while the request is pending, and the settling of
the request with `r`. -/
def uploadRound (es : List Event) (r : Outcome) (w : Sys) : Sys :=
  run (Event.clickUpload :: es ++ [Event.uploadSettled 0 r]) w

/-- One query from the submission to its end: the submission of the form, the
events `es` that happen while the request is pending, and the settling of the
request with `r`. -/
def queryRound (es : List Event) (r : Outcome) (w : Sys) : Sys :=
  run (Event.submitQuery :: es ++ [Event.querySettled 0 r]) w

/-! ## Properties stated about the transcript -/

/-- The user turn `handleQuery` appends for the question `q`. -/
def userMsg (q : String) : Msg :=
  { role := Role.user, content := some (JsVal.str q), sources := none }

/-- The assistant turn `handleQuery` appends when the query fails. -/
def apologyMsg : Msg :=
  { role := Role.assistant, content := some (JsVal.str apology), sources := none }

/-- The roles of the turns of a transcript, in order. -/
def roles (h : List Msg) : List Role := h.map (fun m => m.role)

/-- Turns alternate user, assistant, user, ... starting with a user turn. -/
def alternates : List Role → Bool
  | [] => true
  | [Role.user] => true
  | Role.user :: Role.assistant :: rest => alternates rest
  | _ => false

/-- Every user turn is followed by its assistant turn: the transcript is a
sequence of question and answer pairs. -/
def answered : List Role → Bool
  | [] => true
  | Role.user :: Role.assistant :: rest => answered rest
  | _ => false

/-- A failed ingest, in the three kinds the upload can fail by: the network
(the `fetch` rejects), a response that is not 2xx, a body that does not parse. -/
def Outcome.isIngestFailure : Outcome → Bool
  | Outcome.rejected _ => true
  | Outcome.response false _ => true
  | Outcome.response true (Body.unparseable _) => true
  | Outcome.response true (Body.parsed _) => false

/-- A failed query: the network (the `fetch` rejects) or a response that is
not 2xx. -/
def Outcome.isQueryFailure : Outcome → Bool
  | Outcome.rejected _ => true
  | Outcome.response false _ => true
  | Outcome.response true _ => false

/-- Is the member absent or a string. -/
def isStringOrAbsent : Option JsVal → Bool
  | none => true
  | some (JsVal.str _) => true
  | some _ => false

/-- Is the member absent or a number. -/
def isNumberOrAbsent : Option JsVal → Bool
  | none => true
  | some (JsVal.num _ _) => true
  | some _ => false

/-- The outcome of an ingest request as the environment and the service
produce it: an error thrown by `fetch` or by `json()` has a message, and the
members of an object body that the handler prints have the type the interface
gives them: `detail` of a response that is not 2xx is a string, `filename` of a
2xx response a string and `num_chunks` a number, each when it is there. -/
def Outcome.wellFormed : Outcome → Bool
  | Outcome.rejected msg => msg != ""
  | Outcome.response _ (Body.unparseable msg) => msg != ""
  | Outcome.response false (Body.parsed (JsVal.obj kvs)) =>
    isStringOrAbsent (lookup "detail" kvs)
  | Outcome.response true (Body.parsed (JsVal.obj kvs)) =>
    isStringOrAbsent (lookup "filename" kvs) && isNumberOrAbsent (lookup "num_chunks" kvs)
  | Outcome.response _ (Body.parsed _) => true

/-- An event whose outcome, when it settles an ingest request, is well formed. -/
def Event.wellFormed : Event → Bool
  | Event.uploadSettled _ r => r.wellFormed
  | _ => true

/-! ## Example inputs -/

/-- A selected document. -/
def docA : File := { name := "a.pdf", bytes := [37, 80, 68, 70] }

/-- The component after `a.pdf` was selected. -/
def selectedA : Sys := run [Event.fileChange (some [docA])] Sys.init

/-- The component after `a.pdf` was selected and the upload button clicked:
the ingest request is pending. -/
def uploadingA : Sys := run [Event.fileChange (some [docA]), Event.clickUpload] Sys.init

/-- The component after the user typed a question. -/
def typedWhat : Sys := run [Event.typeQuestion "What is X?"] Sys.init

/-- The component after the user typed blanks only. -/
def typedBlank : Sys := run [Event.typeQuestion "   "] Sys.init

/-- The 2xx body of the ingest endpoint for `a.pdf` cut into 7 chunks. -/
def summaryA : List (String × JsVal) :=
  [("filename", JsVal.str "a.pdf"), ("num_chunks", JsVal.num 7 (by decide))]

/-- A 2xx body of the query endpoint. -/
def answerXY : List (String × JsVal) :=
  [("answer", JsVal.str "X is Y"), ("sources", JsVal.arr [JsVal.str "...excerpt..."])]

/-- A successful upload of `a.pdf` followed by one that fails on the network. -/
def twoUploads : List Event :=
  [Event.fileChange (some [docA]), Event.clickUpload,
   Event.uploadSettled 0 (Outcome.response true (Body.parsed (JsVal.obj summaryA))),
   Event.fileChange (some [docA]), Event.clickUpload,
   Event.uploadSettled 0 (Outcome.rejected "Failed to fetch")]

/-! ## Invariants of the running component -/

/-- While `uploading` is false nothing is pending on the ingest endpoint;
while it is true exactly one request is, and a file is selected. -/
def UploadInv (w : Sys) : Prop :=
  (w.ui.uploading = false → w.uploads = []) ∧
  (w.ui.uploading = true → w.ui.file ≠ none ∧ ∃ f, w.uploads = [f])

/-- While `querying` is false nothing is pending on the query endpoint and
every question of the transcript is answered; while it is true the transcript
is an answered one followed by the question that is pending, and the input
buffer is empty. -/
def QueryInv (w : Sys) : Prop :=
  (w.ui.querying = false → w.queries = [] ∧ answered (roles w.ui.chatHistory) = true) ∧
  (w.ui.querying = true → w.ui.question = "" ∧ ∃ h q,
      w.ui.chatHistory = h ++ [userMsg q] ∧ w.queries = [q] ∧ answered (roles h) = true)

@[simp] theorem run_nil (w : Sys) : run [] w = w := rfl

@[simp] theorem run_cons (e : Event) (es : List Event) (w : Sys) :
    run (e :: es) w = run es (step w e) := rfl

@[simp] theorem run_append (es fs : List Event) (w : Sys) :
    run (es ++ fs) w = run fs (run es w) := by
  simp [run, List.foldl_append]

theorem answered_append_pair (l : List Role) (h : answered l = true) :
    answered (l ++ [Role.user, Role.assistant]) = true := by
  induction l using answered.induct with
  | case1 => rfl
  | case2 rest ih => simpa [answered] using ih (by simpa [answered] using h)
  | case3 l h1 h2 =>
    cases l with
    | nil => exact absurd rfl h1
    | cons a t =>
      cases a <;> cases t with
      | nil => simp [answered] at h
      | cons b u => cases b <;> simp_all [answered]

theorem alternates_of_answered (l : List Role) (h : answered l = true) :
    alternates l = true := by
  induction l using answered.induct with
  | case1 => rfl
  | case2 rest ih => simpa [alternates] using ih (by simpa [answered] using h)
  | case3 l h1 h2 =>
    cases l with
    | nil => exact absurd rfl h1
    | cons a t =>
      cases a <;> cases t with
      | nil => simp [answered] at h
      | cons b u => cases b <;> simp_all [answered]

theorem alternates_append_user (l : List Role) (h : answered l = true) :
    alternates (l ++ [Role.user]) = true := by
  induction l using answered.induct with
  | case1 => rfl
  | case2 rest ih => simpa [alternates] using ih (by simpa [answered] using h)
  | case3 l h1 h2 =>
    cases l with
    | nil => exact absurd rfl h1
    | cons a t =>
      cases a <;> cases t with
      | nil => simp [answered] at h
      | cons b u => cases b <;> simp_all [answered]

theorem getLast_of_answered (l : List Role) (h : answered l = true) :
    l.getLast? ≠ some Role.user := by
  induction l using answered.induct with
  | case1 => simp
  | case2 rest ih =>
    have := ih (by simpa [answered] using h)
    cases rest with
    | nil => simp
    | cons c v => simpa [List.getLast?_cons_cons] using this
  | case3 l h1 h2 =>
    cases l with
    | nil => exact absurd rfl h1
    | cons a t =>
      cases a <;> cases t with
      | nil => simp [answered] at h
      | cons b u => cases b <;> simp_all [answered]

/-! ### What each handler leaves alone -/

theorem handleFileChange_frame (files : Option (List File)) (s : State) :
    (handleFileChange files s).uploading = s.uploading ∧
    (handleFileChange files s).stats = s.stats ∧
    (handleFileChange files s).question = s.question ∧
    (handleFileChange files s).chatHistory = s.chatHistory ∧
    (handleFileChange files s).querying = s.querying := by
  rcases files with _ | _ | ⟨f, t⟩ <;> simp [handleFileChange]

theorem handleUpload_frame (s : State) :
    (handleUpload s).1.file = s.file ∧
    (handleUpload s).1.stats = s.stats ∧
    (handleUpload s).1.question = s.question ∧
    (handleUpload s).1.chatHistory = s.chatHistory ∧
    (handleUpload s).1.querying = s.querying := by
  unfold handleUpload
  cases h : s.file <;> simp [h]

theorem uploadButtonClick_frame (s : State) :
    (uploadButtonClick s).1.file = s.file ∧
    (uploadButtonClick s).1.stats = s.stats ∧
    (uploadButtonClick s).1.question = s.question ∧
    (uploadButtonClick s).1.chatHistory = s.chatHistory ∧
    (uploadButtonClick s).1.querying = s.querying := by
  unfold uploadButtonClick
  split
  · simp
  · split
    · simp
    · exact handleUpload_frame s

theorem uploadTry_frame (r : Outcome) (s : State) :
    (uploadTry r s).1.uploading = s.uploading ∧
    (uploadTry r s).1.question = s.question ∧
    (uploadTry r s).1.chatHistory = s.chatHistory ∧
    (uploadTry r s).1.querying = s.querying := by
  rcases r with msg | ⟨ok, body⟩
  · simp [uploadTry]
  · cases ok <;> cases body with
    | unparseable msg => simp [uploadTry]
    | parsed v =>
      simp only [uploadTry]
      repeat (first | split | simp)

theorem handleUploadResume_frame (r : Outcome) (s : State) :
    (handleUploadResume r s).uploading = false ∧
    (handleUploadResume r s).question = s.question ∧
    (handleUploadResume r s).chatHistory = s.chatHistory ∧
    (handleUploadResume r s).querying = s.querying := by
  have h := uploadTry_frame r s
  unfold handleUploadResume
  rcases hu : uploadTry r s with ⟨s1, _ | msg⟩ <;> rw [hu] at h <;> simpa using h.2

theorem questionInputChange_frame (value : String) (s : State) :
    (questionInputChange value s).file = s.file ∧
    (questionInputChange value s).uploading = s.uploading ∧
    (questionInputChange value s).uploadStatus = s.uploadStatus ∧
    (questionInputChange value s).uploadMessage = s.uploadMessage ∧
    (questionInputChange value s).stats = s.stats ∧
    (questionInputChange value s).chatHistory = s.chatHistory ∧
    (questionInputChange value s).querying = s.querying := by
  unfold questionInputChange
  split <;> simp

theorem handleQuery_frame (s : State) :
    (handleQuery s).1.file = s.file ∧
    (handleQuery s).1.uploading = s.uploading ∧
    (handleQuery s).1.uploadStatus = s.uploadStatus ∧
    (handleQuery s).1.uploadMessage = s.uploadMessage ∧
    (handleQuery s).1.stats = s.stats := by
  unfold handleQuery
  split <;> simp

theorem queryTry_role (r : Outcome) (m : Msg) (h : queryTry r = some m) :
    m.role = Role.assistant := by
  rcases r with msg | ⟨ok, body⟩
  · simp [queryTry] at h
  · cases ok <;> cases body with
    | unparseable msg => simp [queryTry] at h
    | parsed v =>
      simp only [queryTry] at h
      first
        | exact absurd h (by simp)
        | (split at h
           · simp only [Option.some.injEq] at h; rw [← h]
           · simp at h)

theorem handleQueryResume_last (r : Outcome) (s : State) :
    ∃ m : Msg, m.role = Role.assistant ∧
      (handleQueryResume r s).chatHistory = s.chatHistory ++ [m] := by
  unfold handleQueryResume
  cases h : queryTry r with
  | none => exact ⟨_, rfl, rfl⟩
  | some m => exact ⟨m, queryTry_role r m h, rfl⟩

theorem handleUploadResume_uploading (r : Outcome) (s : State) :
    (handleUploadResume r s).uploading = false := rfl

theorem uploadInv_step (w : Sys) (e : Event) (h : UploadInv w) : UploadInv (step w e) := by
  obtain ⟨h0, h1⟩ := h
  cases e with
  | fileChange files =>
    rcases files with _ | _ | ⟨f, t⟩
    · exact ⟨h0, h1⟩
    · exact ⟨h0, h1⟩
    · refine ⟨fun hu => h0 hu, fun hu => ⟨by simp [step, handleFileChange], (h1 hu).2⟩⟩
  | clickUpload =>
    cases hf : w.ui.file with
    | none =>
      have hs : step w Event.clickUpload = w := by
        simp [step, uploadButtonClick, hf]
      rw [hs]; exact ⟨h0, h1⟩
    | some f =>
      cases hu : w.ui.uploading with
      | true =>
        have hs : step w Event.clickUpload = w := by
          simp [step, uploadButtonClick, hf, hu]
        rw [hs]; exact ⟨h0, h1⟩
      | false =>
        refine ⟨fun hu2 => ?_, fun _ => ⟨?_, f, ?_⟩⟩
        · simp [step, uploadButtonClick, handleUpload, hf, hu] at hu2
        · simp [step, uploadButtonClick, handleUpload, hf, hu]
        · simp [step, uploadButtonClick, handleUpload, hf, hu, h0 hu]
  | uploadSettled i r =>
    by_cases hi : i < w.uploads.length
    · have hu : w.ui.uploading = true := by
        cases hu : w.ui.uploading with
        | true => rfl
        | false => rw [h0 hu] at hi; simp at hi
      obtain ⟨_, f, hf⟩ := h1 hu
      have hi0 : i = 0 := by rw [hf] at hi; simpa using hi
      subst hi0
      refine ⟨fun _ => ?_, fun hu2 => ?_⟩
      · simp [step, hi, hf]
      · simp [step, hi, handleUploadResume_uploading] at hu2
    · have hs : step w (Event.uploadSettled i r) = w := by simp [step, hi]
      rw [hs]; exact ⟨h0, h1⟩
  | typeQuestion value =>
    have hq := questionInputChange_frame value w.ui
    simpa [UploadInv, step, hq.1, hq.2.1] using And.intro h0 h1
  | submitQuery =>
    have hq := handleQuery_frame w.ui
    simpa [UploadInv, step, hq.1, hq.2.1] using And.intro h0 h1
  | querySettled i r =>
    by_cases hi : i < w.queries.length
    · simpa [UploadInv, step, hi, handleQueryResume] using And.intro h0 h1
    · have hs : step w (Event.querySettled i r) = w := by simp [step, hi]
      rw [hs]; exact ⟨h0, h1⟩

theorem queryInv_step (w : Sys) (e : Event) (h : QueryInv w) : QueryInv (step w e) := by
  obtain ⟨h0, h1⟩ := h
  cases e with
  | fileChange files =>
    have hq := handleFileChange_frame files w.ui
    simpa [QueryInv, step, hq.2.2.1, hq.2.2.2.1, hq.2.2.2.2] using And.intro h0 h1
  | clickUpload =>
    have hq := uploadButtonClick_frame w.ui
    simpa [QueryInv, step, hq.2.2.1, hq.2.2.2.1, hq.2.2.2.2] using And.intro h0 h1
  | uploadSettled i r =>
    by_cases hi : i < w.uploads.length
    · have hq := handleUploadResume_frame r w.ui
      simpa [QueryInv, step, hi, hq.2.1, hq.2.2.1, hq.2.2.2] using And.intro h0 h1
    · have hs : step w (Event.uploadSettled i r) = w := by simp [step, hi]
      rw [hs]; exact ⟨h0, h1⟩
  | typeQuestion value =>
    cases hq : w.ui.querying with
    | true =>
      have hs : step w (Event.typeQuestion value) = w := by
        simp [step, questionInputChange, hq]
      rw [hs]; exact ⟨h0, h1⟩
    | false =>
      refine ⟨fun _ => ?_, fun hq2 => ?_⟩
      · simpa [step, questionInputChange, hq] using h0 hq
      · simp [step, questionInputChange, hq] at hq2
  | submitQuery =>
    by_cases hg : (trim w.ui.question = "" || w.ui.querying) = true
    · have hs : step w Event.submitQuery = w := by
        simp only [step, handleQuery, hg]; simp
      rw [hs]; exact ⟨h0, h1⟩
    · have hq : w.ui.querying = false := by
        cases hq : w.ui.querying with
        | false => rfl
        | true => simp [hq] at hg
      obtain ⟨hq0, ha⟩ := h0 hq
      refine ⟨fun hq2 => ?_, fun _ => ⟨?_, w.ui.chatHistory, w.ui.question, ?_, ?_, ha⟩⟩
      · simp [step, handleQuery, hg] at hq2
      · simp [step, handleQuery, hg]
      · simp [step, handleQuery, hg, userMsg]
      · simp [step, handleQuery, hg, hq0]
  | querySettled i r =>
    by_cases hi : i < w.queries.length
    · have hq : w.ui.querying = true := by
        cases hq : w.ui.querying with
        | true => rfl
        | false => rw [(h0 hq).1] at hi; simp at hi
      obtain ⟨_, h, q, hh, hqs, ha⟩ := h1 hq
      have hi0 : i = 0 := by rw [hqs] at hi; simpa using hi
      subst hi0
      refine ⟨fun _ => ⟨?_, ?_⟩, fun hq2 => ?_⟩
      · simp [step, hi, hqs]
      · obtain ⟨m, hm, hlast⟩ := handleQueryResume_last r w.ui
        simp only [step, hi, if_true, hlast, hh]
        have := answered_append_pair (roles h) ha
        simpa [roles, userMsg, hm] using this
      · simp [step, hi, handleQueryResume] at hq2
    · have hs : step w (Event.querySettled i r) = w := by simp [step, hi]
      rw [hs]; exact ⟨h0, h1⟩

theorem uploadInv_run (es : List Event) (w : Sys) (h : UploadInv w) : UploadInv (run es w) := by
  induction es generalizing w with
  | nil => exact h
  | cons e es ih => exact ih (step w e) (uploadInv_step w e h)

theorem queryInv_run (es : List Event) (w : Sys) (h : QueryInv w) : QueryInv (run es w) := by
  induction es generalizing w with
  | nil => exact h
  | cons e es ih => exact ih (step w e) (queryInv_step w e h)

theorem uploadInv_init : UploadInv Sys.init :=
  ⟨fun _ => rfl, fun h => by simp [Sys.init, State.init] at h⟩

theorem queryInv_init : QueryInv Sys.init :=
  ⟨fun _ => ⟨rfl, rfl⟩, fun h => by simp [Sys.init, State.init] at h⟩

theorem uploadInv_of_reachable (w : Sys) (h : Reachable w) : UploadInv w := by
  obtain ⟨es, rfl⟩ := h
  exact uploadInv_run es Sys.init uploadInv_init

theorem queryInv_of_reachable (w : Sys) (h : Reachable w) : QueryInv w := by
  obtain ⟨es, rfl⟩ := h
  exact queryInv_run es Sys.init queryInv_init

/-! ### While a request is pending -/

theorem query_pending_step (w : Sys) (e : Event) (q : String)
    (hq : w.ui.querying = true) (hp : w.queries = [q]) (hb : w.ui.question = "")
    (he : e.isQuerySettled = false) :
    (step w e).ui.querying = true ∧ (step w e).queries = [q] ∧
    (step w e).ui.question = "" ∧ (step w e).ui.chatHistory = w.ui.chatHistory := by
  cases e with
  | fileChange files =>
    have h := handleFileChange_frame files w.ui
    simp [step, h.2.2.1, h.2.2.2.1, h.2.2.2.2, hq, hp, hb]
  | clickUpload =>
    have h := uploadButtonClick_frame w.ui
    simp [step, h.2.2.1, h.2.2.2.1, h.2.2.2.2, hq, hp, hb]
  | uploadSettled i r =>
    have h := handleUploadResume_frame r w.ui
    by_cases hi : i < w.uploads.length
    · simp [step, hi, h.2.1, h.2.2.1, h.2.2.2, hq, hp, hb]
    · simp [step, hi, hq, hp, hb]
  | typeQuestion value => simp [step, questionInputChange, hq, hp, hb]
  | submitQuery => simp [step, handleQuery, hq, hp, hb]
  | querySettled i r => simp [Event.isQuerySettled] at he

theorem query_pending_run (es : List Event) (w : Sys) (q : String)
    (hq : w.ui.querying = true) (hp : w.queries = [q]) (hb : w.ui.question = "")
    (hes : ∀ e ∈ es, e.isQuerySettled = false) :
    (run es w).ui.querying = true ∧ (run es w).queries = [q] ∧
    (run es w).ui.question = "" ∧ (run es w).ui.chatHistory = w.ui.chatHistory := by
  induction es generalizing w with
  | nil => exact ⟨hq, hp, hb, rfl⟩
  | cons e es ih =>
    obtain ⟨h1, h2, h3, h4⟩ :=
      query_pending_step w e q hq hp hb (hes e (List.mem_cons_self e es))
    have := ih (step w e) h1 h2 h3 (fun x hx => hes x (List.mem_cons_of_mem e hx))
    simpa [h4] using this

theorem upload_pending_step (w : Sys) (e : Event) (f : File)
    (hu : w.ui.uploading = true) (hp : w.uploads = [f]) (hf : w.ui.file ≠ none)
    (he : e.isUploadSettled = false) :
    (step w e).ui.uploading = true ∧ (step w e).uploads = [f] ∧
    (step w e).ui.file ≠ none ∧
    (e.isFileChange = false → (step w e).ui.file = w.ui.file) := by
  cases e with
  | fileChange files =>
    have h := handleFileChange_frame files w.ui
    refine ⟨by simp [step, h.1, hu], by simp [step, hp], ?_, by simp [Event.isFileChange]⟩
    rcases files with _ | _ | ⟨g, t⟩ <;> simp [step, handleFileChange, hf]
  | clickUpload =>
    cases hfile : w.ui.file with
    | none => exact absurd hfile hf
    | some g => simp [step, uploadButtonClick, hfile, hu, hp]
  | uploadSettled i r => simp [Event.isUploadSettled] at he
  | typeQuestion value =>
    have h := questionInputChange_frame value w.ui
    simp [step, h.1, h.2.1, hu, hp, hf]
  | submitQuery =>
    have h := handleQuery_frame w.ui
    simp [step, h.1, h.2.1, hu, hp, hf]
  | querySettled i r =>
    by_cases hi : i < w.queries.length
    · simp [step, hi, handleQueryResume, hu, hp, hf]
    · simp [step, hi, hu, hp, hf]

theorem upload_pending_run (es : List Event) (w : Sys) (f : File)
    (hu : w.ui.uploading = true) (hp : w.uploads = [f]) (hf : w.ui.file ≠ none)
    (hes : ∀ e ∈ es, e.isUploadSettled = false) :
    (run es w).ui.uploading = true ∧ (run es w).uploads = [f] ∧
    (run es w).ui.file ≠ none ∧
    ((∀ e ∈ es, e.isFileChange = false) → (run es w).ui.file = w.ui.file) := by
  induction es generalizing w with
  | nil => exact ⟨hu, hp, hf, fun _ => rfl⟩
  | cons e es ih =>
    obtain ⟨h1, h2, h3, h4⟩ :=
      upload_pending_step w e f hu hp hf (hes e (List.mem_cons_self e es))
    obtain ⟨k1, k2, k3, k4⟩ :=
      ih (step w e) h1 h2 h3 (fun x hx => hes x (List.mem_cons_of_mem e hx))
    refine ⟨k1, k2, k3, fun hn => ?_⟩
    have a := k4 (fun x hx => hn x (List.mem_cons_of_mem e hx))
    have b := h4 (hn e (List.mem_cons_self e es))
    simpa [b] using a

theorem submitQuery_accepted (w : Sys) (hidle : w.ui.querying = false)
    (hq : trim w.ui.question ≠ "") (hnone : w.queries = []) :
    (step w Event.submitQuery).ui.querying = true ∧
    (step w Event.submitQuery).queries = [w.ui.question] ∧
    (step w Event.submitQuery).ui.question = "" ∧
    (step w Event.submitQuery).ui.chatHistory =
      w.ui.chatHistory ++ [userMsg w.ui.question] := by
  have hg : (decide (trim w.ui.question = "") || w.ui.querying) = false := by
    simp [hq, hidle]
  refine ⟨?_, ?_, ?_, ?_⟩
  · simp [step, handleQuery, hg]
  · simp [step, handleQuery, hg, hnone]
  · simp [step, handleQuery, hg]
  · simp [step, handleQuery, hg, userMsg]

theorem querySettled_pending (w : Sys) (q : String) (r : Outcome) (hp : w.queries = [q]) :
    step w (Event.querySettled 0 r) =
      { w with ui := handleQueryResume r w.ui, queries := [] } := by
  simp [step, hp]

theorem uploadSettled_pending (w : Sys) (f : File) (r : Outcome) (hp : w.uploads = [f]) :
    step w (Event.uploadSettled 0 r) =
      { w with ui := handleUploadResume r w.ui, uploads := [] } := by
  simp [step, hp]

theorem clickUpload_accepted (w : Sys) (f : File) (hf : w.ui.file = some f)
    (hidle : w.ui.uploading = false) (hnone : w.uploads = []) :
    (step w Event.clickUpload).ui.uploading = true ∧
    (step w Event.clickUpload).uploads = [f] ∧
    (step w Event.clickUpload).ui.file = some f ∧
    (step w Event.clickUpload).ui.uploadStatus = none ∧
    (step w Event.clickUpload).ui.uploadMessage =
      "Processing PDF... this may take a moment." := by
  simp [step, uploadButtonClick, handleUpload, hf, hidle, hnone]

/-! ### The end of an upload -/

theorem success_message_ne_empty (a b : String) :
    "Successfully processed " ++ a ++ " (" ++ b ++ " chunks)." ≠ "" := by
  intro h
  have := congrArg String.length h
  simp only [String.length_append] at this
  have h2 : " (".length = 2 := by decide
  have h0 : "".length = 0 := by decide
  omega

theorem uploadTry_not_ok (v : JsVal) (s : State) :
    ∃ m, uploadTry (Outcome.response false (Body.parsed v)) s = (s, some m) ∧
      (uploadErrorMessage v = Except.ok m ∨ uploadErrorMessage v = Except.error m) := by
  cases h : uploadErrorMessage v with
  | error e => exact ⟨e, by simp [uploadTry, h], Or.inr rfl⟩
  | ok m => exact ⟨m, by simp [uploadTry, h], Or.inl rfl⟩

theorem handleUploadResume_failure (r : Outcome) (s : State) (hr : r.isIngestFailure = true) :
    (handleUploadResume r s).uploadStatus = some Status.error ∧
    (handleUploadResume r s).uploading = false ∧
    (handleUploadResume r s).file = s.file ∧
    (handleUploadResume r s).stats = s.stats := by
  rcases r with msg | ⟨ok, body⟩
  · simp [handleUploadResume, uploadTry]
  · cases ok
    · cases body with
      | unparseable msg => simp [handleUploadResume, uploadTry]
      | parsed v =>
        obtain ⟨m, hm, _⟩ := uploadTry_not_ok v s
        simp [handleUploadResume, hm]
    · cases body with
      | unparseable msg => simp [handleUploadResume, uploadTry]
      | parsed v => simp [Outcome.isIngestFailure] at hr

theorem uploadErrorMessage_ne_empty (v : JsVal) (m : String)
    (hwf : (Outcome.response false (Body.parsed v)).wellFormed = true)
    (hm : uploadErrorMessage v = Except.ok m ∨ uploadErrorMessage v = Except.error m) :
    m ≠ "" := by
  cases v with
  | null =>
    simp [uploadErrorMessage, getProp] at hm
    rw [← hm]; decide
  | bool b =>
    simp [uploadErrorMessage, getProp, truthy] at hm
    rw [← hm]; decide
  | num n safe =>
    simp [uploadErrorMessage, getProp, truthy] at hm
    rw [← hm]; decide
  | str t =>
    simp [uploadErrorMessage, getProp, truthy] at hm
    rw [← hm]; decide
  | arr xs =>
    simp [uploadErrorMessage, getProp, truthy] at hm
    rw [← hm]; decide
  | obj kvs =>
    cases hl : lookup "detail" kvs with
    | none =>
      simp [uploadErrorMessage, getProp, truthy, hl] at hm
      rw [← hm]; decide
    | some d =>
      cases d with
      | str t =>
        by_cases ht : t = ""
        · simp [uploadErrorMessage, getProp, truthy, hl, ht] at hm
          rw [← hm]; decide
        · simp [uploadErrorMessage, getProp, truthy, hl, ht, toStr, JsVal.toStr] at hm
          rw [← hm]; exact ht
      | _ => simp [Outcome.wellFormed, hl, isStringOrAbsent] at hwf

theorem successMessage_ne_empty (v : JsVal) (m : String)
    (hm : successMessage v = Except.ok m) : m ≠ "" := by
  unfold successMessage at hm
  split at hm
  · simp at hm
  · split at hm
    · simp at hm
    · split at hm
      · simp at hm
      · split at hm
        · simp at hm
        · simp only [Except.ok.injEq] at hm
          rw [← hm]
          exact success_message_ne_empty _ _

theorem successMessage_error (v : JsVal) (e : String)
    (hwf : (Outcome.response true (Body.parsed v)).wellFormed = true)
    (he : successMessage v = Except.error e) : v = JsVal.null ∧ e ≠ "" := by
  cases v with
  | null =>
    simp [successMessage, getProp] at he
    exact ⟨rfl, by rw [← he]; decide⟩
  | bool b => simp [successMessage, getProp, toStr] at he
  | num n safe => simp [successMessage, getProp, toStr] at he
  | str t => simp [successMessage, getProp, toStr] at he
  | arr xs => simp [successMessage, getProp, toStr] at he
  | obj kvs =>
    exfalso
    simp only [Outcome.wellFormed, Bool.and_eq_true] at hwf
    obtain ⟨h1, h2⟩ := hwf
    cases hf : lookup "filename" kvs with
    | none =>
      cases hn : lookup "num_chunks" kvs with
      | none => simp [successMessage, getProp, toStr, hf, hn] at he
      | some c =>
        cases c with
        | num n safe => simp [successMessage, getProp, toStr, JsVal.toStr, hf, hn] at he
        | _ => simp [hn, isNumberOrAbsent] at h2
    | some d =>
      cases d with
      | str t =>
        cases hn : lookup "num_chunks" kvs with
        | none => simp [successMessage, getProp, toStr, JsVal.toStr, hf, hn] at he
        | some c =>
          cases c with
          | num n safe => simp [successMessage, getProp, toStr, JsVal.toStr, hf, hn] at he
          | _ => simp [hn, isNumberOrAbsent] at h2
      | _ => simp [hf, isStringOrAbsent] at h1

theorem handleUploadResume_message (r : Outcome) (s : State) (hr : r.wellFormed = true) :
    (handleUploadResume r s).uploadMessage ≠ "" := by
  rcases r with msg | ⟨ok, body⟩
  · simpa [handleUploadResume, uploadTry, Outcome.wellFormed] using hr
  · cases ok
    · cases body with
      | unparseable msg =>
        simpa [handleUploadResume, uploadTry, Outcome.wellFormed] using hr
      | parsed v =>
        obtain ⟨m, hm, hv⟩ := uploadTry_not_ok v s
        have := uploadErrorMessage_ne_empty v m hr hv
        simpa [handleUploadResume, hm] using this
    · cases body with
      | unparseable msg =>
        simpa [handleUploadResume, uploadTry, Outcome.wellFormed] using hr
      | parsed v =>
        cases hm : successMessage v with
        | error e =>
          have := (successMessage_error v e hr hm).2
          simpa [handleUploadResume, uploadTry, hm] using this
        | ok m =>
          have := successMessage_ne_empty v m hm
          simpa [handleUploadResume, uploadTry, hm] using this

theorem handleUploadResume_stats (r : Outcome) (s : State) (hr : r.wellFormed = true) :
    (handleUploadResume r s).stats = s.stats ∨
    (handleUploadResume r s).uploadStatus = some Status.success ∨
    (handleUploadResume r s).stats = JsVal.null := by
  rcases r with msg | ⟨ok, body⟩
  · simp [handleUploadResume, uploadTry]
  · cases ok
    · cases body with
      | unparseable msg => simp [handleUploadResume, uploadTry]
      | parsed v =>
        obtain ⟨m, hm, _⟩ := uploadTry_not_ok v s
        simp [handleUploadResume, hm]
    · cases body with
      | unparseable msg => simp [handleUploadResume, uploadTry]
      | parsed v =>
        cases hm : successMessage v with
        | error e =>
          have hv := (successMessage_error v e hr hm).1
          subst hv
          simp [handleUploadResume, uploadTry, hm]
        | ok m => simp [handleUploadResume, uploadTry, hm]

theorem banner_step (w : Sys) (e : Event) (he : e.wellFormed = true)
    (h : w.ui.uploadStatus ≠ none → w.ui.uploadMessage ≠ "") :
    (step w e).ui.uploadStatus ≠ none → (step w e).ui.uploadMessage ≠ "" := by
  cases e with
  | fileChange files =>
    rcases files with _ | _ | ⟨f, t⟩
    · exact h
    · exact h
    · intro hs; simp [step, handleFileChange] at hs
  | clickUpload =>
    cases hf : w.ui.file with
    | none => simpa [step, uploadButtonClick, hf] using h
    | some f =>
      cases hu : w.ui.uploading with
      | true => simpa [step, uploadButtonClick, hf, hu] using h
      | false => intro hs; simp [step, uploadButtonClick, handleUpload, hf, hu] at hs
  | uploadSettled i r =>
    by_cases hi : i < w.uploads.length
    · intro _
      simpa [step, hi] using handleUploadResume_message r w.ui he
    · simpa [step, hi] using h
  | typeQuestion value =>
    have hq := questionInputChange_frame value w.ui
    simpa [step, hq.2.2.1, hq.2.2.2.1] using h
  | submitQuery =>
    have hq := handleQuery_frame w.ui
    simpa [step, hq.2.2.1, hq.2.2.2.1] using h
  | querySettled i r =>
    by_cases hi : i < w.queries.length
    · simpa [step, hi, handleQueryResume] using h
    · simpa [step, hi] using h

theorem stats_step (w : Sys) (e : Event) (he : e.wellFormed = true) :
    (step w e).ui.stats = w.ui.stats ∨
    (step w e).ui.uploadStatus = some Status.success ∨
    (step w e).ui.stats = JsVal.null := by
  cases e with
  | fileChange files => exact Or.inl (handleFileChange_frame files w.ui).2.1
  | clickUpload => exact Or.inl (uploadButtonClick_frame w.ui).2.1
  | uploadSettled i r =>
    by_cases hi : i < w.uploads.length
    · simpa [step, hi] using handleUploadResume_stats r w.ui he
    · simp [step, hi]
  | typeQuestion value => exact Or.inl (questionInputChange_frame value w.ui).2.2.2.2.1
  | submitQuery => exact Or.inl (handleQuery_frame w.ui).2.2.2.2
  | querySettled i r =>
    by_cases hi : i < w.queries.length
    · simp [step, hi, handleQueryResume]
    · simp [step, hi]

/-! ## The claims -/

/-- C1: in every reachable state with a document selected and an upload in
flight (`uploading = true`), invoking the upload operation again, which
reaches `handleUpload` only through the upload button, is a no-op: the
component state (status, message, summary and selected document) and the
pending requests are as before and no request is sent. Exactly one ingest
request is pending there, it stays the only one along every sequence of
events until it settles, and in every reachable state at most one is pending. -/
theorem uploadButton_inflight_noop (w : Sys) (f : File) (hw : Reachable w)
    (hf : w.ui.file = some f) (hu : w.ui.uploading = true) :
    step w Event.clickUpload = w ∧
    (uploadButtonClick w.ui).2 = none ∧
    (∃ g, w.uploads = [g]) ∧
    (∀ es : List Event, (∀ e ∈ es, e.isUploadSettled = false) →
      (run es w).uploads = w.uploads ∧ (run es w).ui.uploading = true) ∧
    (∀ v : Sys, Reachable v → v.uploads.length ≤ 1) := by
  have hclick : uploadButtonClick w.ui = (w.ui, none) := by
    simp [uploadButtonClick, hf, hu]
  obtain ⟨_, g, hg⟩ := (uploadInv_of_reachable w hw).2 hu
  refine ⟨by simp [step, hclick], by simp [hclick], ⟨g, hg⟩, fun es hes => ?_, fun v hv => ?_⟩
  · obtain ⟨k1, k2, _, _⟩ := upload_pending_run es w g hu hg (by simp [hf]) hes
    exact ⟨by rw [k2, hg], k1⟩
  · obtain ⟨h0, h1⟩ := uploadInv_of_reachable v hv
    cases hv2 : v.ui.uploading with
    | false => simp [h0 hv2]
    | true =>
      obtain ⟨_, x, hx⟩ := h1 hv2
      simp [hx]

/-- C1 at `a.pdf` with its upload pending: a second click changes nothing and
the one request for `a.pdf` stays the only one. -/
theorem uploadButton_inflight_noop_witness :
    step uploadingA Event.clickUpload = uploadingA ∧
    (run [Event.clickUpload, Event.clickUpload] uploadingA).uploads = [docA] :=
  ⟨(uploadButton_inflight_noop uploadingA docA
      ⟨[Event.fileChange (some [docA]), Event.clickUpload], rfl⟩ (by decide) (by decide)).1,
   by decide⟩

/-- C2: when the question is empty after trimming, or a query is pending
(`querying = true`), `handleQuery` returns the state as it is and sends no
request, and submitting the form leaves the component, the transcript, the
input buffer and the pending queries as they were. -/
theorem handleQuery_rejected_noop (w : Sys)
    (h : trim w.ui.question = "" ∨ w.ui.querying = true) :
    handleQuery w.ui = (w.ui, none) ∧ step w Event.submitQuery = w := by
  have hg : (decide (trim w.ui.question = "") || w.ui.querying) = true := by
    rcases h with h | h <;> simp [h]
  have hk : handleQuery w.ui = (w.ui, none) := by
    simp only [handleQuery, hg]; simp
  exact ⟨hk, by simp [step, hk]⟩

/-- C2 at a question of three blanks. -/
theorem handleQuery_rejected_noop_witness :
    handleQuery typedBlank.ui = (typedBlank.ui, none) ∧
    step typedBlank Event.submitQuery = typedBlank :=
  handleQuery_rejected_noop typedBlank (Or.inl (by decide))

/-- C3: from a reachable state with a document selected and no upload
pending, the click on the upload button, then any events other than the
settling of the request, then a 2xx response whose body is an object with
`filename` a string and `num_chunks` an integer (a safe one, `|n| < 2^53`) end
with `uploadStatus` success, `uploading` false, `stats` the body itself, the
message `Successfully processed <filename> (<num_chunks> chunks).`, which
contains both, no document selected and no request pending. -/
theorem upload_success_state (w : Sys) (f : File) (es : List Event)
    (kvs : List (String × JsVal)) (name : String) (n : Int) (hsafe : n.natAbs < 2 ^ 53)
    (hw : Reachable w) (hf : w.ui.file = some f) (hidle : w.ui.uploading = false)
    (hes : ∀ e ∈ es, e.isUploadSettled = false)
    (hname : lookup "filename" kvs = some (JsVal.str name))
    (hn : lookup "num_chunks" kvs = some (JsVal.num n hsafe)) :
    (uploadRound es (Outcome.response true (Body.parsed (JsVal.obj kvs))) w).ui.uploadStatus =
      some Status.success ∧
    (uploadRound es (Outcome.response true (Body.parsed (JsVal.obj kvs))) w).ui.uploading =
      false ∧
    (uploadRound es (Outcome.response true (Body.parsed (JsVal.obj kvs))) w).ui.stats =
      JsVal.obj kvs ∧
    (uploadRound es (Outcome.response true (Body.parsed (JsVal.obj kvs))) w).ui.uploadMessage =
      "Successfully processed " ++ name ++ " (" ++ toString n ++ " chunks)." ∧
    (∃ a b c : String,
      (uploadRound es (Outcome.response true (Body.parsed (JsVal.obj kvs))) w).ui.uploadMessage =
        a ++ name ++ b ++ toString n ++ c) ∧
    (uploadRound es (Outcome.response true (Body.parsed (JsVal.obj kvs))) w).ui.file = none ∧
    (uploadRound es (Outcome.response true (Body.parsed (JsVal.obj kvs))) w).uploads = [] := by
  have hnone := (uploadInv_of_reachable w hw).1 hidle
  obtain ⟨h1, h2, h3, _, _⟩ := clickUpload_accepted w f hf hidle hnone
  obtain ⟨_, k2, _, _⟩ :=
    upload_pending_run es (step w Event.clickUpload) f h1 h2 (by simp [h3]) hes
  have hs : successMessage (JsVal.obj kvs) =
      Except.ok ("Successfully processed " ++ name ++ " (" ++ toString n ++ " chunks).") := by
    simp [successMessage, getProp, hname, hn, toStr, JsVal.toStr]
  simp only [uploadRound, run_cons, run_append, run_nil]
  rw [uploadSettled_pending _ _ _ k2]
  have hm : (handleUploadResume (Outcome.response true (Body.parsed (JsVal.obj kvs)))
      (run es (step w Event.clickUpload)).ui).uploadMessage =
      "Successfully processed " ++ name ++ " (" ++ toString n ++ " chunks)." := by
    simp [handleUploadResume, uploadTry, hs]
  refine ⟨?_, ?_, ?_, hm, ⟨"Successfully processed ", " (", " chunks).", hm⟩, ?_, rfl⟩ <;>
    simp [handleUploadResume, uploadTry, hs]

/-- C3 at `a.pdf` and the body `filename: "a.pdf", num_chunks: 7`, while the
user meanwhile types a question. -/
theorem upload_success_state_witness :
    (uploadRound [Event.typeQuestion "What is X?"]
      (Outcome.response true (Body.parsed (JsVal.obj summaryA))) selectedA).ui.uploadMessage =
      "Successfully processed a.pdf (7 chunks)." ∧
    (uploadRound [Event.typeQuestion "What is X?"]
      (Outcome.response true (Body.parsed (JsVal.obj summaryA))) selectedA).ui.file = none :=
  ⟨(upload_success_state selectedA docA [Event.typeQuestion "What is X?"] summaryA "a.pdf" 7
      (by decide) ⟨[Event.fileChange (some [docA])], rfl⟩ (by decide) (by decide) (by decide)
      rfl rfl).2.2.2.1,
   by decide⟩

/-- C4: from a reachable state with a document selected and no upload
pending, the click on the upload button, then any events other than the
settling of the request, then a failure of the upload (the `fetch` rejects,
the response is not 2xx, or the body does not parse) end with `uploadStatus`
error and `uploading` false, and the failure leaves the selected document as
it was: still selected, and the uploaded file itself unless the user selected
another one meanwhile. -/
theorem upload_failure_keeps_document (w : Sys) (f : File) (es : List Event) (r : Outcome)
    (hw : Reachable w) (hf : w.ui.file = some f) (hidle : w.ui.uploading = false)
    (hes : ∀ e ∈ es, e.isUploadSettled = false) (hr : r.isIngestFailure = true) :
    (uploadRound es r w).ui.uploadStatus = some Status.error ∧
    (uploadRound es r w).ui.uploading = false ∧
    (uploadRound es r w).ui.file = (run (Event.clickUpload :: es) w).ui.file ∧
    (uploadRound es r w).ui.file ≠ none ∧
    ((∀ e ∈ es, e.isFileChange = false) → (uploadRound es r w).ui.file = some f) ∧
    (uploadRound es r w).uploads = [] := by
  have hnone := (uploadInv_of_reachable w hw).1 hidle
  obtain ⟨h1, h2, h3, _, _⟩ := clickUpload_accepted w f hf hidle hnone
  obtain ⟨_, k2, k3, k4⟩ :=
    upload_pending_run es (step w Event.clickUpload) f h1 h2 (by simp [h3]) hes
  obtain ⟨a1, a2, a3, _⟩ :=
    handleUploadResume_failure r (run es (step w Event.clickUpload)).ui hr
  simp only [uploadRound, run_cons, run_append, run_nil]
  rw [uploadSettled_pending _ _ _ k2]
  refine ⟨a1, a2, a3, ?_, fun hno => ?_, rfl⟩
  · simpa [a3] using k3
  · simpa [a3, h3] using k4 hno

/-- C4 at `a.pdf` and a 500 response with `detail: "bad pdf"`. -/
theorem upload_failure_keeps_document_witness :
    (uploadRound [] (Outcome.response false
      (Body.parsed (JsVal.obj [("detail", JsVal.str "bad pdf")]))) selectedA).ui.file =
      some docA :=
  (upload_failure_keeps_document selectedA docA []
    (Outcome.response false (Body.parsed (JsVal.obj [("detail", JsVal.str "bad pdf")])))
    ⟨[Event.fileChange (some [docA])], rfl⟩ (by decide) (by decide) (by simp)
    (by decide)).2.2.2.2.1 (by simp)

/-- C5, as stated, fails for a network failure: when the `fetch` of the upload
of `a.pdf` rejects with the error message "Failed to fetch", the upload ends
in error with that message, not with "Upload failed". -/
theorem upload_network_failure_message :
    (uploadRound [] (Outcome.rejected "Failed to fetch") selectedA).ui.uploadStatus =
      some Status.error ∧
    (uploadRound [] (Outcome.rejected "Failed to fetch") selectedA).ui.uploadMessage =
      "Failed to fetch" ∧
    (uploadRound [] (Outcome.rejected "Failed to fetch") selectedA).ui.uploadMessage ≠
      "Upload failed" := by
  decide

/-- C5, amended: the message of a failed upload is the message of the error
the handler caught. For a response that is not 2xx with an object body it is
the `detail` string verbatim when that is a non-empty string, and
"Upload failed" when `detail` is absent or the empty string; for a network
failure or a body that does not parse it is the message of the error thrown by
`fetch` or `json()`. A 500 with `detail: "bad pdf"` gives "bad pdf". -/
theorem upload_failure_message (s : State) :
    (∀ (kvs : List (String × JsVal)) (d : String),
      lookup "detail" kvs = some (JsVal.str d) → d ≠ "" →
      (handleUploadResume (Outcome.response false (Body.parsed (JsVal.obj kvs))) s).uploadMessage
        = d) ∧
    (∀ kvs : List (String × JsVal),
      lookup "detail" kvs = none ∨ lookup "detail" kvs = some (JsVal.str "") →
      (handleUploadResume (Outcome.response false (Body.parsed (JsVal.obj kvs))) s).uploadMessage
        = "Upload failed") ∧
    (∀ msg : String, (handleUploadResume (Outcome.rejected msg) s).uploadMessage = msg) ∧
    (∀ (ok : Bool) (msg : String),
      (handleUploadResume (Outcome.response ok (Body.unparseable msg)) s).uploadMessage = msg) ∧
    (handleUploadResume (Outcome.response false
      (Body.parsed (JsVal.obj [("detail", JsVal.str "bad pdf")]))) s).uploadMessage =
      "bad pdf" := by
  refine ⟨fun kvs d hd hne => ?_, fun kvs hd => ?_, fun msg => ?_, fun ok msg => ?_, ?_⟩
  · simp [handleUploadResume, uploadTry, uploadErrorMessage, getProp, hd, truthy, hne, toStr,
      JsVal.toStr]
  · rcases hd with hd | hd <;>
      simp [handleUploadResume, uploadTry, uploadErrorMessage, getProp, hd, truthy]
  · simp [handleUploadResume, uploadTry]
  · cases ok <;> simp [handleUploadResume, uploadTry]
  · simp [handleUploadResume, uploadTry, uploadErrorMessage, getProp, lookup, truthy, toStr,
      JsVal.toStr]

/-- C5, amended, at a 422 response with `detail: "no file"`. -/
theorem upload_failure_message_witness :
    (handleUploadResume (Outcome.response false
      (Body.parsed (JsVal.obj [("detail", JsVal.str "no file")]))) uploadingA.ui).uploadMessage =
      "no file" :=
  (upload_failure_message uploadingA.ui).1 [("detail", JsVal.str "no file")] "no file"
    rfl (by decide)

/-- C6: from a reachable state with no query pending and a question `q` in
the input that is not empty after trimming, submitting it, then any events
other than the settling of the query, then a 2xx response whose body is an
object with the members `answer` and `sources` leave the transcript as the
prior one followed by the user turn of `q` and an assistant turn whose content
and sources are those two members as they came, the input empty, `querying`
false and no query pending. -/
theorem query_success_transcript (w : Sys) (es : List Event)
    (kvs : List (String × JsVal)) (answer sources : JsVal) (hw : Reachable w)
    (hidle : w.ui.querying = false) (hq : trim w.ui.question ≠ "")
    (hes : ∀ e ∈ es, e.isQuerySettled = false)
    (ha : lookup "answer" kvs = some answer)
    (hs : lookup "sources" kvs = some sources) :
    (queryRound es (Outcome.response true (Body.parsed (JsVal.obj kvs))) w).ui.chatHistory =
      w.ui.chatHistory ++
        [{ role := Role.user, content := some (JsVal.str w.ui.question), sources := none },
         { role := Role.assistant, content := some answer, sources := some sources }] ∧
    (queryRound es (Outcome.response true (Body.parsed (JsVal.obj kvs))) w).ui.question = "" ∧
    (queryRound es (Outcome.response true (Body.parsed (JsVal.obj kvs))) w).ui.querying = false ∧
    (queryRound es (Outcome.response true (Body.parsed (JsVal.obj kvs))) w).queries = [] := by
  have hnone := ((queryInv_of_reachable w hw).1 hidle).1
  obtain ⟨h1, h2, h3, h4⟩ := submitQuery_accepted w hidle hq hnone
  obtain ⟨_, k2, k3, k4⟩ :=
    query_pending_run es (step w Event.submitQuery) w.ui.question h1 h2 h3 hes
  simp only [queryRound, run_cons, run_append, run_nil]
  rw [querySettled_pending _ _ _ k2]
  simp [k3, k4, h4, handleQueryResume, queryTry, getProp, ha, hs, userMsg]

/-- C6 at the question "What is X?" answered "X is Y" with one excerpt, while
the user meanwhile selects a document: the transcript, the input and
`querying` at the end. -/
theorem query_success_transcript_witness :
    (queryRound [Event.fileChange (some [docA])]
      (Outcome.response true (Body.parsed (JsVal.obj answerXY))) typedWhat).ui.chatHistory =
      [{ role := Role.user, content := some (JsVal.str "What is X?"), sources := none },
       { role := Role.assistant, content := some (JsVal.str "X is Y"),
         sources := some (JsVal.arr [JsVal.str "...excerpt..."]) }] ∧
    (queryRound [Event.fileChange (some [docA])]
      (Outcome.response true (Body.parsed (JsVal.obj answerXY))) typedWhat).ui.question = "" ∧
    (queryRound [Event.fileChange (some [docA])]
      (Outcome.response true (Body.parsed (JsVal.obj answerXY))) typedWhat).ui.querying = false :=
  ⟨(query_success_transcript typedWhat [Event.fileChange (some [docA])] answerXY
      (JsVal.str "X is Y") (JsVal.arr [JsVal.str "...excerpt..."])
      ⟨[Event.typeQuestion "What is X?"], rfl⟩ (by decide) (by decide) (by decide)
      rfl rfl).1,
   by decide, by decide⟩

/-- C7: from a reachable state with no query pending and an accepted question
`q` in the input, submitting it, then any events other than the settling of
the query, then a failure of the query (the `fetch` rejects, or the response is
not 2xx) leave the transcript as the prior one followed by the user turn of
`q` and the apology turn, which carries no sources and lists none, with
`querying` false and no query pending. -/
theorem query_failure_transcript (w : Sys) (es : List Event) (r : Outcome)
    (hw : Reachable w) (hidle : w.ui.querying = false)
    (hq : trim w.ui.question ≠ "")
    (hes : ∀ e ∈ es, e.isQuerySettled = false) (hr : r.isQueryFailure = true) :
    (queryRound es r w).ui.chatHistory =
      w.ui.chatHistory ++ [userMsg w.ui.question, apologyMsg] ∧
    apologyMsg.content = some (JsVal.str apology) ∧
    apologyMsg.sources = none ∧ renderedSources apologyMsg = [] ∧
    (queryRound es r w).ui.querying = false ∧
    (queryRound es r w).queries = [] := by
  have hnone := ((queryInv_of_reachable w hw).1 hidle).1
  obtain ⟨h1, h2, h3, h4⟩ := submitQuery_accepted w hidle hq hnone
  obtain ⟨_, k2, _, k4⟩ :=
    query_pending_run es (step w Event.submitQuery) w.ui.question h1 h2 h3 hes
  have ht : queryTry r = none := by
    rcases r with msg | ⟨ok, body⟩
    · rfl
    · cases ok
      · rfl
      · simp [Outcome.isQueryFailure] at hr
  simp only [queryRound, run_cons, run_append, run_nil]
  rw [querySettled_pending _ _ _ k2]
  refine ⟨?_, rfl, rfl, rfl, rfl, rfl⟩
  simp [k4, h4, handleQueryResume, ht, apologyMsg]

/-- C7 at the question "What is X?" and a network failure. -/
theorem query_failure_transcript_witness :
    (queryRound [] (Outcome.rejected "Failed to fetch") typedWhat).ui.chatHistory =
      typedWhat.ui.chatHistory ++ [userMsg typedWhat.ui.question, apologyMsg] :=
  (query_failure_transcript typedWhat [] (Outcome.rejected "Failed to fetch")
    ⟨[Event.typeQuestion "What is X?"], rfl⟩ (by decide) (by decide)
    (by simp) (by decide)).1

/-- C8: the transcript is append-only. For every state and every event (file
selection, upload click, upload settling, typing, query submission, query
settling) the transcript before is a prefix of the transcript after, its
length does not decrease, and the same holds along every sequence of events. -/
theorem transcript_append_only :
    (∀ (w : Sys) (e : Event),
      w.ui.chatHistory <+: (step w e).ui.chatHistory ∧
      w.ui.chatHistory.length ≤ (step w e).ui.chatHistory.length) ∧
    (∀ (es : List Event) (w : Sys),
      w.ui.chatHistory <+: (run es w).ui.chatHistory ∧
      w.ui.chatHistory.length ≤ (run es w).ui.chatHistory.length) := by
  have hstep : ∀ (w : Sys) (e : Event), w.ui.chatHistory <+: (step w e).ui.chatHistory := by
    intro w e
    cases e with
    | fileChange files =>
      have h := handleFileChange_frame files w.ui
      simp [step, h.2.2.2.1]
    | clickUpload =>
      have h := uploadButtonClick_frame w.ui
      simp [step, h.2.2.2.1]
    | uploadSettled i r =>
      have h := handleUploadResume_frame r w.ui
      by_cases hi : i < w.uploads.length
      · simp [step, hi, h.2.2.1]
      · simp [step, hi]
    | typeQuestion value =>
      have h := questionInputChange_frame value w.ui
      simp [step, h.2.2.2.2.2.1]
    | submitQuery =>
      simp only [step, handleQuery]
      split
      · simp
      · simp
    | querySettled i r =>
      by_cases hi : i < w.queries.length
      · simp [step, hi, handleQueryResume]
      · simp [step, hi]
  have hrun : ∀ (es : List Event) (w : Sys), w.ui.chatHistory <+: (run es w).ui.chatHistory := by
    intro es
    induction es with
    | nil => intro w; simp
    | cons e es ih => intro w; exact (hstep w e).trans (ih (step w e))
  exact ⟨fun w e => ⟨hstep w e, (hstep w e).length_le⟩,
    fun es w => ⟨hrun es w, (hrun es w).length_le⟩⟩

/-- C9, as stated, fails: the upload of `a.pdf` answered by a response that is
not 2xx whose body carries `detail: []` ends with `uploadStatus` error and an
empty upload message (the empty array is truthy and prints as the empty
string). -/
theorem upload_empty_detail_message :
    (uploadRound [] (Outcome.response false
      (Body.parsed (JsVal.obj [("detail", JsVal.arr [])]))) selectedA).ui.uploadStatus =
      some Status.error ∧
    (uploadRound [] (Outcome.response false
      (Body.parsed (JsVal.obj [("detail", JsVal.arr [])]))) selectedA).ui.uploadMessage = "" := by
  decide

/-- C9, amended: after any sequence of events whose ingest outcomes are well
formed (errors thrown by `fetch` and `json()` have a message; `detail`, when a
response that is not 2xx carries it, is a string, and so is `filename` of a
2xx response, with `num_chunks` a number), the upload message is not
empty whenever `uploadStatus` is success or error, and `stats` is set only if
at that point or at an earlier point of the sequence `uploadStatus` was
success. -/
theorem upload_banner_invariant (evs : List Event)
    (hwf : ∀ e ∈ evs, e.wellFormed = true) :
    ((run evs Sys.init).ui.uploadStatus ≠ none →
      (run evs Sys.init).ui.uploadMessage ≠ "") ∧
    ((run evs Sys.init).ui.stats ≠ JsVal.null →
      ∃ k, k ≤ evs.length ∧
        (run (evs.take k) Sys.init).ui.uploadStatus = some Status.success) := by
  induction evs using List.reverseRecOn with
  | nil => exact ⟨fun h => absurd rfl h, fun h => absurd rfl h⟩
  | append_singleton l a ih =>
    obtain ⟨ih1, ih2⟩ := ih (fun e he => hwf e (List.mem_append_left _ he))
    have ha : a.wellFormed = true := hwf a (by simp)
    have hrun : run (l ++ [a]) Sys.init = step (run l Sys.init) a := by simp
    refine ⟨?_, fun hs => ?_⟩
    · rw [hrun]; exact banner_step _ a ha ih1
    · rw [hrun] at hs
      rcases stats_step (run l Sys.init) a ha with h | h | h
      · rw [h] at hs
        obtain ⟨k, hk, hsucc⟩ := ih2 hs
        refine ⟨k, by simp; omega, ?_⟩
        rw [List.take_append_of_le_length hk]
        exact hsucc
      · refine ⟨(l ++ [a]).length, le_refl _, ?_⟩
        rw [List.take_length, hrun]
        exact h
      · exact absurd h hs

/-- C9 after a successful upload of `a.pdf` followed by a failed one. -/
theorem upload_banner_invariant_witness :
    (∀ e ∈ twoUploads, e.wellFormed = true) ∧
    (run twoUploads Sys.init).ui.uploadMessage ≠ "" :=
  ⟨by decide, (upload_banner_invariant twoUploads (by decide)).1 (by decide)⟩

/-- C10: in every reachable state the turns of the transcript alternate user,
assistant, ... from a user turn on; the transcript ends with a user turn
exactly when `querying` is true, and then the one pending query is the
question of that last turn, while no query is pending otherwise; and when
a pending query settles, its assistant turn is appended right behind the user
turn of its question, so no two queries interleave. -/
theorem transcript_alternates (w : Sys) (hw : Reachable w) :
    alternates (roles w.ui.chatHistory) = true ∧
    ((roles w.ui.chatHistory).getLast? = some Role.user ↔ w.ui.querying = true) ∧
    (w.ui.querying = true →
      ∃ h q, w.ui.chatHistory = h ++ [userMsg q] ∧ w.queries = [q]) ∧
    (w.ui.querying = false → w.queries = []) ∧
    (∀ (i : Nat) (r : Outcome), i < w.queries.length →
      ∃ h q m, w.ui.chatHistory = h ++ [userMsg q] ∧ w.queries = [q] ∧
        m.role = Role.assistant ∧
        (step w (Event.querySettled i r)).ui.chatHistory = h ++ [userMsg q, m] ∧
        (step w (Event.querySettled i r)).ui.querying = false ∧
        (step w (Event.querySettled i r)).queries = []) := by
  obtain ⟨h0, h1⟩ := queryInv_of_reachable w hw
  have hpend : w.ui.querying = true →
      ∃ h q, w.ui.chatHistory = h ++ [userMsg q] ∧ w.queries = [q] := by
    intro hq
    obtain ⟨_, h, q, hh, hqs, _⟩ := h1 hq
    exact ⟨h, q, hh, hqs⟩
  refine ⟨?_, ?_, hpend, fun hq => (h0 hq).1, ?_⟩
  · cases hq : w.ui.querying with
    | false => exact alternates_of_answered _ (h0 hq).2
    | true =>
      obtain ⟨_, h, q, hh, _, ha⟩ := h1 hq
      have := alternates_append_user (roles h) ha
      simpa [hh, roles, userMsg] using this
  · cases hq : w.ui.querying with
    | false =>
      have := getLast_of_answered _ (h0 hq).2
      simp [this]
    | true =>
      obtain ⟨_, h, q, hh, _, _⟩ := h1 hq
      simp [hh, roles, userMsg]
  · intro i r hi
    have hq : w.ui.querying = true := by
      cases hq : w.ui.querying with
      | true => rfl
      | false => rw [(h0 hq).1] at hi; simp at hi
    obtain ⟨_, h, q, hh, hqs, _⟩ := h1 hq
    have hi0 : i = 0 := by rw [hqs] at hi; simpa using hi
    subst hi0
    obtain ⟨m, hm, hlast⟩ := handleQueryResume_last r w.ui
    refine ⟨h, q, m, hh, hqs, hm, ?_, ?_, ?_⟩
    · simp [step, hi, hlast, hh]
    · simp [step, hi, handleQueryResume]
    · simp [step, hi, hqs]

/-- C10 after a question was asked, answered, and a second one asked. -/
theorem transcript_alternates_witness :
    alternates (roles (run [Event.typeQuestion "What is X?", Event.submitQuery,
      Event.querySettled 0 (Outcome.response true (Body.parsed (JsVal.obj answerXY))),
      Event.typeQuestion "Why?", Event.submitQuery] Sys.init).ui.chatHistory) = true :=
  (transcript_alternates _ ⟨_, rfl⟩).1

end App
